import Mathlib

/-!
Verification development for the nativelink-cache client
(src/src/cas/grpcClient.ts and the service layer in the same file).

The TypeScript source is shallowly embedded: pure computations become Lean
functions; stateful network interactions are modelled by passing the remote
endpoint responses explicitly (an oracle per request), and every exception
becomes an `Except` value.  JavaScript numbers that stay integral are `Nat`
(or `Int` where negative sentinels occur), and JS string truthiness is made
explicit (`truthy`).
-/

namespace NL

/-! ### SHA-256 (model of node crypto createHash("sha256") ... digest("hex"))
All words are `Nat` reduced modulo `2 ^ 32`. -/

def w32 (n : Nat) : Nat := n % 4294967296

def rotr32 (b n : Nat) : Nat := w32 ((n >>> b) ||| (n <<< (32 - b)))

def bsig0 (x : Nat) : Nat := rotr32 2 x ^^^ rotr32 13 x ^^^ rotr32 22 x

def bsig1 (x : Nat) : Nat := rotr32 6 x ^^^ rotr32 11 x ^^^ rotr32 25 x

def ssig0 (x : Nat) : Nat := rotr32 7 x ^^^ rotr32 18 x ^^^ (x >>> 3)

def ssig1 (x : Nat) : Nat := rotr32 17 x ^^^ rotr32 19 x ^^^ (x >>> 10)

def chFn (x y z : Nat) : Nat := (x &&& y) ^^^ ((x ^^^ 4294967295) &&& z)

def majFn (x y z : Nat) : Nat := (x &&& y) ^^^ (x &&& z) ^^^ (y &&& z)

/-- The 64 SHA-256 round constants, in decimal. -/
def K256 : List Nat :=
  [1116352408, 1899447441, 3049323471, 3921009573, 961987163,
   1508970993, 2453635748, 2870763221, 3624381080, 310598401,
   607225278, 1426881987, 1925078388, 2162078206, 2614888103,
   3248222580, 3835390401, 4022224774, 264347078, 604807628,
   770255983, 1249150122, 1555081692, 1996064986, 2554220882,
   2821834349, 2952996808, 3210313671, 3336571891, 3584528711,
   113926993, 338241895, 666307205, 773529912, 1294757372,
   1396182291, 1695183700, 1986661051, 2177026350, 2456956037,
   2730485921, 2820302411, 3259730800, 3345764771, 3516065817,
   3600352804, 4094571909, 275423344, 430227734, 506948616,
   659060556, 883997877, 958139571, 1322822218, 1537002063,
   1747873779, 1955562222, 2024104815, 2227730452, 2361852424,
   2428436474, 2756734187, 3204031479, 3329325298]

/-- The eight SHA-256 initial hash words, in decimal. -/
def H256init : List Nat :=
  [1779033703, 3144134277, 1013904242, 2773480762, 1359893119,
   2600822924, 528734635, 1541459225]

/-- Big-endian byte expansion, `k` bytes. -/
def toBytesBE (k n : Nat) : List Nat :=
  (List.range k).map (fun i => (n >>> (8 * (k - 1 - i))) % 256)

/-- Split a list into consecutive chunks of `C` elements; the final chunk is
shorter when the length is not a multiple of `C`.  (`C = 0` is a degenerate
guard never used.) -/
def chunksOf : Nat → List α → List (List α)
  | _, [] => []
  | 0, l => [l]
  | C + 1, a :: rest =>
    (a :: rest).take (C + 1) :: chunksOf (C + 1) ((a :: rest).drop (C + 1))
termination_by _ l => l.length
decreasing_by
  simp only [List.length_drop, List.length_cons]
  omega

def wordsOf (block : List Nat) : List Nat :=
  (chunksOf 4 block).map (fun b => b.foldl (fun a x => a * 256 + x) 0)

def schedule (ws : List Nat) : List Nat :=
  (List.range 48).foldl
    (fun w _ =>
      w ++ [w32 (ssig1 (w.getD (w.length - 2) 0) + w.getD (w.length - 7) 0 +
                 ssig0 (w.getD (w.length - 15) 0) + w.getD (w.length - 16) 0)])
    ws

def compress (h : List Nat) (block : List Nat) : List Nat :=
  let w := schedule (wordsOf block)
  let step := fun (st : List Nat) (i : Nat) =>
    match st with
    | [a, b, c, d, e, f, g, hh] =>
      let t1 := w32 (hh + bsig1 e + chFn e f g + K256.getD i 0 + w.getD i 0)
      let t2 := w32 (bsig0 a + majFn a b c)
      [w32 (t1 + t2), a, b, c, w32 (d + t1), e, f, g]
    | st => st
  let fin := (List.range 64).foldl step h
  (h.zip fin).map (fun p => w32 (p.1 + p.2))

def padMessage (msg : List Nat) : List Nat :=
  let len := msg.length
  msg ++ [0x80] ++ List.replicate ((119 - len % 64) % 64) 0 ++
    toBytesBE 8 ((8 * len) % 18446744073709551616)

def sha256Bytes (msg : List Nat) : List Nat :=
  ((chunksOf 64 (padMessage msg)).foldl compress H256init).flatMap (toBytesBE 4)

def hexChar (n : Nat) : Char :=
  if n < 10 then Char.ofNat (48 + n) else Char.ofNat (87 + n)

def byteToHex (b : Nat) : String := String.mk [hexChar (b / 16), hexChar (b % 16)]

/-- Hex digest of the SHA-256 hash of the UTF-8 bytes of a string. -/
def sha256Hex (s : String) : String :=
  String.join ((sha256Bytes (s.toUTF8.toList.map (fun b => b.toNat))).map byteToHex)

/-! ### Key Versioning Engine: getCacheVersion (grpcClient.ts lines 252-286) -/

/-- Ambient process state read by the source: process.platform === "win32"
and process.env["VERSION_SALT"]. -/
structure Env where
  platformIsWin32 : Bool
  versionSaltEnv : Option String

/-- JS truthiness of an optional string: defined and non-empty. -/
def truthy : Option String → Bool
  | some s => decide (s ≠ "")
  | none => false

/-- `const versionSalt = process.env["VERSION_SALT"] || "1.0"`. -/
def resolvedVersionSalt (env : Env) : String :=
  match env.versionSaltEnv with
  | some s => if s = "" then "1.0" else s
  | none => "1.0"

/-- Embedding of `getCacheVersion`: builds the component list by successive
pushes exactly as the source does, joins with "|" and hashes. -/
def getCacheVersion (env : Env) (paths : List String) (compressionMethod : Option String)
    (enableCrossOsArchive : Bool) (key : Option String) : String :=
  let components := paths
  let components :=
    if truthy compressionMethod then components ++ [compressionMethod.getD ""] else components
  let components :=
    if env.platformIsWin32 && !enableCrossOsArchive then components ++ ["windows-only"]
    else components
  let components := if truthy key then components ++ [key.getD ""] else components
  let components := components ++ [resolvedVersionSalt env]
  sha256Hex (String.intercalate "|" components)

/-- Spec-side component list, following the specification wording: paths in
order, then the compression tag if present, then "windows-only" if the
platform is windows-like and the cross-platform flag is false, then the
symbolic key if present, then the salt.  "Present" is read as holding a
non-empty string (JS truthiness), consistently with the guards of the
source and with claim C10. -/
def specComponents (env : Env) (paths : List String) (compressionMethod : Option String)
    (enableCrossOsArchive : Bool) (key : Option String) : List String :=
  paths ++
    (match compressionMethod with
     | some c => if c = "" then [] else [c]
     | none => []) ++
    (if env.platformIsWin32 = true ∧ enableCrossOsArchive = false then ["windows-only"]
     else []) ++
    (match key with
     | some k => if k = "" then [] else [k]
     | none => []) ++
    [resolvedVersionSalt env]

/-! ### Upload Pipeline: FileAsyncIterable (grpcClient.ts lines 28-33, 186-248)

The async generator is embedded as a function of the sequence of byte chunks
delivered by the underlying read stream (`createReadStream` with
`highWaterMark = chunkSize`).  Bytes are `Nat` values below 256. -/

def MAX_GRPC_REQUEST_SIZE : Nat := 4 * 1024 * 1024 - 1024

def MESSAGE_SIZE : Nat := 64 * 1024

/-- `this.chunkSize = data.uploadChunkSize || MESSAGE_SIZE` (0 is falsy). -/
def chunkSizeOf : Option Nat → Nat
  | some n => if n = 0 then MESSAGE_SIZE else n
  | none => MESSAGE_SIZE

/-- One ByteStream WriteRequest frame. -/
structure WriteRequest where
  resourceName : String
  data : List Nat
  writeOffset : Nat
  finishWrite : Bool

/-- The loop body of `[Symbol.asyncIterator]`: for each chunk received,
`chunk_size = min(remaining, chunkSize)`, the frame carries the chunk, the
running `offset`, and `finishWrite = (remaining - chunk_size <= 0)`. -/
def goFileFrames (resourceName : String) (chunkSize : Nat) :
    List (List Nat) → Nat → Nat → List WriteRequest
  | [], _, _ => []
  | ch :: rest, offset, remaining =>
    let cs := min remaining chunkSize
    let remaining2 := remaining - cs
    { resourceName := resourceName, data := ch, writeOffset := offset,
      finishWrite := decide (remaining2 ≤ 0) } ::
      goFileFrames resourceName chunkSize rest (offset + cs) remaining2

/-- The whole iterator: `offset = 0; remaining = fileByteLength - offset`,
then the loop over the delivered chunks. -/
def fileFrames (resourceName : String) (fileByteLength chunkSize : Nat)
    (chunks : List (List Nat)) : List WriteRequest :=
  goFileFrames resourceName chunkSize chunks 0 (fileByteLength - 0)

/-- Upload of a file whose bytes are delivered by the reader in maximal
chunks (every chunk exactly `chunkSize` bytes except a shorter final one),
with the declared size equal to the actual byte length — the behaviour of a
Node file read stream with `highWaterMark = chunkSize`. -/
def uploadFrames (resourceName : String) (chunkSize : Nat) (bytes : List Nat) :
    List WriteRequest :=
  fileFrames resourceName bytes.length chunkSize (chunksOf chunkSize bytes)

/-! ### Key Resolution Orchestrator: getCacheEntry (grpcClient.ts lines 288-419)

Network interactions are an oracle: the response the ActionCache returns for
the primary key lookup and, positionally, for each restore key (Promise.all
preserves the declaration order of getActionResultProms, so completion order
never reaches the scan). -/

structure Digest where
  hash : String
  sizeBytes : Nat
deriving DecidableEq

structure OutputFile where
  path : String
  digest : Digest
deriving DecidableEq

/-- Outcome of one `getActionResult` call: a resolved ActionResult (its
outputFiles), a ConnectError with a gRPC code and raw message, or any other
thrown error. -/
inductive LookupResult where
  | actionResult (outputFiles : List OutputFile)
  | connectErr (code : Nat) (rawMessage : String)
  | otherErr (message : String)
deriving DecidableEq

/-- connect-es Code.NotFound. -/
def NotFoundCode : Nat := 5

/-- The TS expression Code[code]: the enum key name, or "undefined" when the
number is not a member of the enum (string interpolation of undefined). -/
def codeName : Nat → String
  | 1 => "Canceled"
  | 2 => "Unknown"
  | 3 => "InvalidArgument"
  | 4 => "DeadlineExceeded"
  | 5 => "NotFound"
  | 6 => "AlreadyExists"
  | 7 => "PermissionDenied"
  | 8 => "ResourceExhausted"
  | 9 => "FailedPrecondition"
  | 10 => "Aborted"
  | 11 => "OutOfRange"
  | 12 => "Unimplemented"
  | 13 => "Internal"
  | 14 => "Unavailable"
  | 15 => "DataLoss"
  | 16 => "Unauthenticated"
  | _ => "undefined"

/-- The oracle for one key-resolution run. `fallbacks` lists, in the order of
the restore keys, the settled outcome of each fallback lookup. -/
structure ResolveRun where
  primary : LookupResult
  fallbacks : List LookupResult
deriving DecidableEq

structure GetCacheEntryResult where
  result : Except String (Option Digest)
  fallbacksIssued : Bool

/-- The scan over the settled fallback promises (lines 363-385): first
ActionResult with outputFiles is returned at once; a non-NotFound
ConnectError appends to errMsg and sets hasError; any other value (including
an ActionResult with no outputFiles, cast to Error with message undefined)
also sets hasError; after the loop, throw Error(errMsg) if hasError, else
return undefined. -/
def scanFallbacks : List LookupResult → Bool → String → Except String (Option Digest)
  | [], hasError, errMsg => if hasError then .error errMsg else .ok none
  | p :: rest, hasError, errMsg =>
    match p with
    | .actionResult (o :: _) => .ok (some o.digest)
    | .actionResult [] => scanFallbacks rest true (errMsg ++ "undefined")
    | .connectErr c m =>
      if c ≠ NotFoundCode then
        scanFallbacks rest true (errMsg ++ ("error code: " ++ codeName c ++ ", message: " ++ m))
      else
        scanFallbacks rest hasError errMsg
    | .otherErr m => scanFallbacks rest true (errMsg ++ m)

/-- Embedding of `getCacheEntry`.  The primary try/catch: an ActionResult
with no outputFiles throws an Error that the catch rethrows (not a
ConnectError); an ActionResult with outputs returns its first digest; a
thrown non-ConnectError is rethrown; a ConnectError of ANY code (NotFound or
genuine) is at most logged and execution falls through to the restore keys:
return undefined when there are none, otherwise scan their settled
lookups. -/
def getCacheEntry (env : Env) (paths : List String) (primaryKey : String)
    (restoreKeys : List String) (compressionMethod : Option String)
    (enableCrossOsArchive : Bool) (run : ResolveRun) : GetCacheEntryResult :=
  let primaryKeyHash :=
    getCacheVersion env paths compressionMethod enableCrossOsArchive (some primaryKey)
  match run.primary with
  | .actionResult [] =>
    { result := .error ("Action result with primaryKeyHash: " ++ primaryKeyHash ++
        " doesn\x27t contain any file"),
      fallbacksIssued := false }
  | .actionResult (o :: _) => { result := .ok (some o.digest), fallbacksIssued := false }
  | .otherErr m => { result := .error m, fallbacksIssued := false }
  | .connectErr _ _ =>
    if restoreKeys.isEmpty then { result := .ok none, fallbacksIssued := false }
    else { result := scanFallbacks run.fallbacks false "", fallbacksIssued := true }

/-- Spec-side: does a lookup outcome hold an association with at least one
recorded output. -/
def hasOutput : LookupResult → Bool
  | .actionResult (_ :: _) => true
  | _ => false

/-- Spec-side: the content digest a hit outcome resolves to. -/
def firstOutputDigest : LookupResult → Option Digest
  | .actionResult (o :: _) => some o.digest
  | _ => none

/-- Spec-side: the digest of the first fallback entry, in declared order,
holding at least one recorded output. -/
def firstHitDigest (l : List LookupResult) : Option Digest :=
  (l.find? hasOutput).bind firstOutputDigest

/-- Spec-side: is an outcome a genuine (non-NotFound) transport error. -/
def genuineErr : LookupResult → Bool
  | .connectErr c _ => decide (c ≠ NotFoundCode)
  | _ => false

/-- Spec-side: is an outcome a clean not-found. -/
def cleanNotFound : LookupResult → Bool
  | .connectErr c _ => decide (c = NotFoundCode)
  | _ => false

/-- The errMsg contribution of one scanned fallback outcome. -/
def contrib : LookupResult → Option String
  | .actionResult [] => some "undefined"
  | .actionResult (_ :: _) => none
  | .connectErr c m =>
    if c ≠ NotFoundCode then some ("error code: " ++ codeName c ++ ", message: " ++ m)
    else none
  | .otherErr m => some m

/-- The aggregated error message the scan accumulates, starting from acc. -/
def collectFrom (acc : String) : List LookupResult → String
  | [] => acc
  | lr :: rest =>
    match contrib lr with
    | some s => collectFrom (acc ++ s) rest
    | none => collectFrom acc rest

/-- The aggregated messages of a whole fallback list. -/
def collectMessages (l : List LookupResult) : String := collectFrom "" l

/-! ### Upload: saveCache (grpcClient.ts lines 72-184)

The two remote calls are the oracle: the ByteStream write result (committed
size, or a thrown error) and the UpdateActionResult outcome. -/

structure SaveRun where
  writeResult : Except String Nat
  updateResult : Except String Unit

/-- Result of a saveCache run: the overall outcome, and the arguments of the
updateActionResult registration call if it was made (the action digest hash
and the registered content digest), or none if it never was. -/
structure SaveOutcome where
  result : Except String Unit
  updateCalledWith : Option (String × Digest)

/-- Embedding of the grpc-level `saveCache`: hash the version components,
stream the file, rethrow a write failure, fail when committedSize <
archiveFileSize, otherwise register the key hash -> digest association
(rethrowing its failure). -/
def saveCache (env : Env) (key : String) (paths : List String)
    (compressionMethod : Option String) (enableCrossOsArchive : Bool)
    (archiveFileSize : Nat) (net : SaveRun) : SaveOutcome :=
  let fileHash := getCacheVersion env paths compressionMethod enableCrossOsArchive none
  let digest : Digest := { hash := fileHash, sizeBytes := archiveFileSize }
  match net.writeResult with
  | .error e => { result := .error e, updateCalledWith := none }
  | .ok committedSize =>
    if committedSize < archiveFileSize then
      { result := .error "The upload process failed to send the entire file content",
        updateCalledWith := none }
    else
      let keyHash := getCacheVersion env paths compressionMethod enableCrossOsArchive (some key)
      match net.updateResult with
      | .error e => { result := .error e, updateCalledWith := some (keyHash, digest) }
      | .ok _ => { result := .ok (), updateCalledWith := some (keyHash, digest) }

/-! ### Service layer: CasCacheService (cache module, lines 464-724)

Errors thrown during an operation carry the name that its top-level catch
inspects: ValidationError, ReserveCacheError, or anything else. -/

inductive OpError where
  | validation (message : String)
  | reserve (message : String)
  | other (message : String)
deriving DecidableEq

/-- `checkPaths` (lines 494-500). -/
def checkPathsErr (paths : List String) : Option String :=
  if paths.isEmpty then
    some "Path Validation Error: At least one directory or file path is required"
  else none

/-- `checkKey` (lines 502-514): length bound first, then the comma regex. -/
def checkKeyErr (key : String) : Option String :=
  if key.length > 512 then
    some ("Key Validation Error: " ++ key ++ " cannot be larger than 512 characters.")
  else if key.data.contains ',' then
    some ("Key Validation Error: " ++ key ++ " cannot contain commas.")
  else none

/-- Oracle for one restoreCache run: outcome of getCacheEntry, of the blob
download, and of the archive extraction. -/
structure RestoreNet where
  entry : Except OpError (Option Digest)
  download : Except OpError Unit
  extract : Except OpError Unit

structure RestoreOutcome where
  result : Except String (Option String)
  networkCalled : Bool

namespace CasCacheService

/-- Embedding of `CasCacheService.restoreCache`: validations throw before any
remote call; inside try, a Miss returns undefined, a hit returns
cacheEntry.hash (with or without download+extract depending on lookupOnly);
the catch rethrows only errors named ValidationError and converts everything
else to undefined with a warning. -/
def restoreCache (paths : List String) (primaryKey : String) (restoreKeys : List String)
    (lookupOnly : Bool) (net : RestoreNet) : RestoreOutcome :=
  match checkPathsErr paths with
  | some m => { result := .error m, networkCalled := false }
  | none =>
    let keys := primaryKey :: restoreKeys
    if keys.length > 10 then
      { result := .error "Key Validation Error: Keys are limited to a maximum of 10.",
        networkCalled := false }
    else
      match keys.findSome? checkKeyErr with
      | some m => { result := .error m, networkCalled := false }
      | none =>
        match net.entry with
        | .error (.validation m) => { result := .error m, networkCalled := true }
        | .error (.reserve _) => { result := .ok none, networkCalled := true }
        | .error (.other _) => { result := .ok none, networkCalled := true }
        | .ok none => { result := .ok none, networkCalled := true }
        | .ok (some cacheEntry) =>
          if lookupOnly then { result := .ok (some cacheEntry.hash), networkCalled := true }
          else
            match net.download with
            | .error (.validation m) => { result := .error m, networkCalled := true }
            | .error _ => { result := .ok none, networkCalled := true }
            | .ok _ =>
              match net.extract with
              | .error (.validation m) => { result := .error m, networkCalled := true }
              | .error _ => { result := .ok none, networkCalled := true }
              | .ok _ => { result := .ok (some cacheEntry.hash), networkCalled := true }

end CasCacheService

/-- JS truthiness of an optional number: defined and non-zero. -/
def truthyNat : Option Nat → Bool
  | some n => decide (n ≠ 0)
  | none => false

/-- 20 GB per-repo limit. -/
def fileSizeLimit : Nat := 20 * 1024 * 1024 * 1024

/-- Oracle for one service-level saveCache run: the archive creation
(createTar/listTar/stat) and the grpc saveCache call. -/
structure SaveNet where
  tar : Except OpError Unit
  save : Except OpError Unit

structure SaveServiceOutcome where
  result : Except String Int
  networkCalled : Bool

namespace CasCacheService

/-- Embedding of `CasCacheService.saveCache`: the uploadChunkSize bound,
checkPaths, checkKey and the resolved-paths check throw ValidationError
before any remote call; inside try, a tar failure or the 20GB limit degrade
to cacheId -1, the grpc save call is then issued and its non-validation
failures degrade to -1 (ReserveCacheError only logged as info), success sets
cacheId 1; the catch rethrows only ValidationError. -/
def saveCache (paths : List String) (key : String) (uploadChunkSize : Option Nat)
    (cachePaths : List String) (archiveFileSize : Nat) (ghes : Bool)
    (net : SaveNet) : SaveServiceOutcome :=
  if truthyNat uploadChunkSize = true ∧ uploadChunkSize.getD 0 * 1024 > MAX_GRPC_REQUEST_SIZE then
    { result := .error ("UploadChunkSize input cannot exceed the value of: " ++
        toString MAX_GRPC_REQUEST_SIZE ++ " MB"),
      networkCalled := false }
  else
    match checkPathsErr paths with
    | some m => { result := .error m, networkCalled := false }
    | none =>
      match checkKeyErr key with
      | some m => { result := .error m, networkCalled := false }
      | none =>
        if cachePaths.isEmpty then
          { result := .error ("Path Validation Error: Path(s) specified in the action " ++
              "for caching do(es) not exist, hence no cache is being saved."),
            networkCalled := false }
        else
          match net.tar with
          | .error (.validation m) => { result := .error m, networkCalled := false }
          | .error _ => { result := .ok (-1), networkCalled := false }
          | .ok _ =>
            if archiveFileSize > fileSizeLimit ∧ ghes = false then
              { result := .ok (-1), networkCalled := false }
            else
              match net.save with
              | .error (.validation m) => { result := .error m, networkCalled := true }
              | .error (.reserve _) => { result := .ok (-1), networkCalled := true }
              | .error (.other _) => { result := .ok (-1), networkCalled := true }
              | .ok _ => { result := .ok 1, networkCalled := true }

end CasCacheService

/-- The validations of restoreCache all pass. -/
def restoreChecksPass (paths : List String) (primaryKey : String)
    (restoreKeys : List String) : Prop :=
  checkPathsErr paths = none ∧ (primaryKey :: restoreKeys).length ≤ 10 ∧
    (primaryKey :: restoreKeys).findSome? checkKeyErr = none

/-- The validations of the service-level saveCache all pass. -/
def saveChecksPass (paths : List String) (key : String) (uploadChunkSize : Option Nat)
    (cachePaths : List String) : Prop :=
  ¬ (truthyNat uploadChunkSize = true ∧
      uploadChunkSize.getD 0 * 1024 > MAX_GRPC_REQUEST_SIZE) ∧
    checkPathsErr paths = none ∧ checkKeyErr key = none ∧ cachePaths.isEmpty = false

end NL

namespace NL

/-! ### Helper lemmas -/

theorem chunksOf_nil (C : Nat) : chunksOf C ([] : List α) = [] := by
  cases C <;> simp [chunksOf]

theorem chunksOf_cons {C : Nat} (hC : C ≠ 0) (l : List α) (hl : l ≠ []) :
    chunksOf C l = l.take C :: chunksOf C (l.drop C) := by
  cases C with
  | zero => exact absurd rfl hC
  | succ c =>
    cases l with
    | nil => exact absurd rfl hl
    | cons a t => rw [chunksOf]

theorem ceil_div_base {C len : Nat} (h1 : 0 < len) (h2 : len ≤ C) :
    (len + C - 1) / C = 1 :=
  Nat.div_eq_of_lt_le (by omega) (by omega)

theorem ceil_div_pos {C m : Nat} (hC : 0 < C) (hm : 0 < m) :
    1 ≤ (m + C - 1) / C :=
  (Nat.le_div_iff_mul_le hC).mpr (by omega)

theorem ceil_div_step {C len : Nat} (hC : 0 < C) (h : C < len) :
    (len + C - 1) / C = ((len - C) + C - 1) / C + 1 := by
  have h1 : len + C - 1 = ((len - C) + C - 1) + C := by omega
  rw [h1, Nat.add_div_right _ hC]

/-- Behaviour of the upload loop on an exact chunking of the file bytes,
with an arbitrary starting offset. -/
theorem goFrames_spec (rn : String) (C : Nat) (hC : 0 < C) :
    ∀ n (bytes : List Nat), bytes.length = n → bytes ≠ [] → ∀ off fs,
    fs = goFileFrames rn C (chunksOf C bytes) off bytes.length →
    fs.length = (bytes.length + C - 1) / C ∧
    fs.map (fun f => f.writeOffset) = (List.range fs.length).map (fun i => off + i * C) ∧
    List.Chain' (fun f g => g.writeOffset = f.writeOffset + f.data.length) fs ∧
    List.Chain' (fun f g => f.writeOffset < g.writeOffset) fs ∧
    (fs.map (fun f => f.data.length)).sum = bytes.length ∧
    fs.map (fun f => f.finishWrite) = List.replicate (fs.length - 1) false ++ [true] := by
  intro n
  induction n using Nat.strong_induction_on with
  | _ n ih =>
  intro bytes hlen hne off fs hfs
  have hCne : C ≠ 0 := by omega
  have hpos : 0 < bytes.length := List.length_pos.mpr hne
  rw [chunksOf_cons hCne bytes hne] at hfs
  simp only [goFileFrames] at hfs
  rcases Nat.lt_or_ge C bytes.length with hlt | hge
  · -- more than one chunk
    have hmin : min bytes.length C = C := Nat.min_eq_right (le_of_lt hlt)
    have hminT : min C bytes.length = C := Nat.min_eq_left (le_of_lt hlt)
    have hdlen : (bytes.drop C).length = bytes.length - C := by
      simp [List.length_drop]
    have hdne : bytes.drop C ≠ [] := by
      have : 0 < (bytes.drop C).length := by omega
      exact List.length_pos.mp this
    have hdec : ¬ (bytes.length - C ≤ 0) := by omega
    rw [hmin, decide_eq_false hdec] at hfs
    obtain ⟨ih1, ih2, ih3, ih4, ih5, ih6⟩ :=
      ih (bytes.length - C) (by omega) (bytes.drop C) hdlen hdne (off + C)
        (goFileFrames rn C (chunksOf C (bytes.drop C)) (off + C) (bytes.length - C))
        (by rw [hdlen])
    rw [hdlen] at ih5
    rw [hdlen] at ih1
    set fs' := goFileFrames rn C (chunksOf C (bytes.drop C)) (off + C) (bytes.length - C)
      with hfs'def
    have hn' : 1 ≤ fs'.length := by
      rw [ih1]; exact ceil_div_pos hC (by omega)
    have htk : (bytes.take C).length = C := by simp [List.length_take, hminT]
    have hhead : ∀ y ∈ fs'.head?, y.writeOffset = off + C := by
      intro y hy
      cases hfse : fs' with
      | nil => rw [hfse] at hy; simp at hy
      | cons x t =>
        rw [hfse] at hy
        simp only [List.head?, Option.mem_def, Option.some.injEq] at hy
        subst hy
        rw [hfse] at ih2
        rw [List.length_cons, List.range_succ_eq_map] at ih2
        simp only [List.map_cons, List.map_map, Function.comp] at ih2
        have := (List.cons.injEq _ _ _ _).mp ih2
        omega
    subst hfs
    refine ⟨?_, ?_, ?_, ?_, ?_, ?_⟩
    · simp only [List.length_cons, ih1, ceil_div_step hC hlt]
    · have hfuneq : ((fun i => off + i * C) ∘ Nat.succ) = fun i => off + C + i * C := by
        funext i
        simp only [Function.comp_apply, Nat.succ_eq_add_one]
        ring
      rw [List.length_cons, List.range_succ_eq_map]
      simp only [List.map_cons, List.map_map, hfuneq, ih2]
      simp
    · rw [List.chain'_cons']
      refine ⟨?_, ih3⟩
      intro y hy
      rw [hhead y hy]
      show off + C = off + (List.take C bytes).length
      rw [htk]
    · rw [List.chain'_cons']
      refine ⟨?_, ih4⟩
      intro y hy
      rw [hhead y hy]
      show off < off + C
      omega
    · simp only [List.map_cons, List.sum_cons]
      show (List.take C bytes).length + (List.map (fun f => f.data.length) fs').sum =
        bytes.length
      rw [htk, ih5]
      omega
    · simp only [List.map_cons, ih6, List.length_cons]
      obtain ⟨k, hk⟩ : ∃ k, fs'.length = k + 1 := ⟨fs'.length - 1, by omega⟩
      rw [hk]
      simp [List.replicate_succ]
  · -- single (final) chunk
    have hmin : min bytes.length C = bytes.length := Nat.min_eq_left hge
    have hdrop : bytes.drop C = [] := List.drop_eq_nil_of_le hge
    rw [hmin, hdrop, chunksOf_nil] at hfs
    simp only [goFileFrames, Nat.sub_self, decide_eq_true_eq] at hfs
    have hfin : decide ((0 : Nat) ≤ 0) = true := by decide
    subst hfs
    refine ⟨?_, ?_, ?_, ?_, ?_, ?_⟩
    · simp [ceil_div_base hpos hge]
    · simp [List.range_succ]
    · simp
    · simp
    · simp [List.length_take, Nat.min_eq_right hge]
    · simp

theorem firstHitDigest_cons_of_no_output {p : LookupResult} (rest : List LookupResult)
    (h : hasOutput p = false) : firstHitDigest (p :: rest) = firstHitDigest rest := by
  simp [firstHitDigest, List.find?_cons, h]

theorem scan_first_hit :
    ∀ (l : List LookupResult) (he : Bool) (acc : String) (d : Digest),
    firstHitDigest l = some d → scanFallbacks l he acc = .ok (some d) := by
  intro l
  induction l with
  | nil => intro he acc d h; simp [firstHitDigest] at h
  | cons p rest ih =>
    intro he acc d h
    cases p with
    | actionResult outs =>
      cases outs with
      | nil =>
        rw [firstHitDigest_cons_of_no_output rest (by simp [hasOutput])] at h
        simpa [scanFallbacks] using ih _ _ _ h
      | cons o os =>
        simp [firstHitDigest, List.find?_cons, hasOutput, firstOutputDigest] at h
        simp [scanFallbacks, h]
    | connectErr c m =>
      rw [firstHitDigest_cons_of_no_output rest (by simp [hasOutput])] at h
      rcases eq_or_ne c NotFoundCode with hc | hc
      · simpa [scanFallbacks, hc] using ih _ _ _ h
      · simpa [scanFallbacks, hc] using ih _ _ _ h
    | otherErr m =>
      rw [firstHitDigest_cons_of_no_output rest (by simp [hasOutput])] at h
      simpa [scanFallbacks] using ih _ _ _ h

theorem scan_ok_some :
    ∀ (l : List LookupResult) (he : Bool) (acc : String) (d : Digest),
    scanFallbacks l he acc = .ok (some d) → firstHitDigest l = some d := by
  intro l
  induction l with
  | nil => intro he acc d h; cases he <;> simp [scanFallbacks] at h
  | cons p rest ih =>
    intro he acc d h
    cases p with
    | actionResult outs =>
      cases outs with
      | nil =>
        rw [firstHitDigest_cons_of_no_output rest (by simp [hasOutput])]
        exact ih _ _ _ (by simpa [scanFallbacks] using h)
      | cons o os =>
        simp [scanFallbacks] at h
        simp [firstHitDigest, List.find?_cons, hasOutput, firstOutputDigest, h]
    | connectErr c m =>
      rw [firstHitDigest_cons_of_no_output rest (by simp [hasOutput])]
      rcases eq_or_ne c NotFoundCode with hc | hc
      · exact ih _ _ _ (by simpa [scanFallbacks, hc] using h)
      · exact ih _ _ _ (by simpa [scanFallbacks, hc] using h)
    | otherErr m =>
      rw [firstHitDigest_cons_of_no_output rest (by simp [hasOutput])]
      exact ih _ _ _ (by simpa [scanFallbacks] using h)

theorem scan_no_hit :
    ∀ (l : List LookupResult) (he : Bool) (acc : String),
    (∀ lr ∈ l, hasOutput lr = false) →
    scanFallbacks l he acc =
      if he || l.any (fun lr => (contrib lr).isSome) then .error (collectFrom acc l)
      else .ok none := by
  intro l
  induction l with
  | nil => intro he acc _; cases he <;> simp [scanFallbacks, collectFrom]
  | cons p rest ih =>
    intro he acc hno
    have hp : hasOutput p = false := hno p (by simp)
    have hrest : ∀ lr ∈ rest, hasOutput lr = false := fun lr h => hno lr (by simp [h])
    cases p with
    | actionResult outs =>
      cases outs with
      | nil =>
        rw [show scanFallbacks (.actionResult [] :: rest) he acc =
            scanFallbacks rest true (acc ++ "undefined") from rfl]
        rw [ih true (acc ++ "undefined") hrest]
        simp [contrib, collectFrom, List.any_cons]
      | cons o os => simp [hasOutput] at hp
    | connectErr c m =>
      rcases eq_or_ne c NotFoundCode with hc | hc
      · rw [show scanFallbacks (.connectErr c m :: rest) he acc =
            scanFallbacks rest he acc from by simp [scanFallbacks, hc]]
        rw [ih he acc hrest]
        simp [contrib, collectFrom, hc, List.any_cons]
      · rw [show scanFallbacks (.connectErr c m :: rest) he acc =
            scanFallbacks rest true
              (acc ++ ("error code: " ++ codeName c ++ ", message: " ++ m)) from by
          simp [scanFallbacks, hc]]
        rw [ih true _ hrest]
        simp [contrib, collectFrom, hc, List.any_cons]
    | otherErr m =>
      rw [show scanFallbacks (.otherErr m :: rest) he acc =
          scanFallbacks rest true (acc ++ m) from rfl]
      rw [ih true (acc ++ m) hrest]
      simp [contrib, collectFrom, List.any_cons]

theorem genuine_contrib {lr : LookupResult} (h : genuineErr lr = true) :
    (contrib lr).isSome = true := by
  cases lr with
  | actionResult outs => simp [genuineErr] at h
  | connectErr c m =>
    simp only [genuineErr, decide_eq_true_eq] at h
    simp [contrib, h]
  | otherErr m => simp [genuineErr] at h

theorem clean_contrib {lr : LookupResult} (h : cleanNotFound lr = true) :
    contrib lr = none := by
  cases lr with
  | actionResult outs => simp [cleanNotFound] at h
  | connectErr c m =>
    simp only [cleanNotFound, decide_eq_true_eq] at h
    simp [contrib, h]
  | otherErr m => simp [cleanNotFound] at h

/-- C2 (amended): for an upload whose declared size equals the actual byte
length S > 0 and whose reader delivers the bytes in maximal chunks (every
chunk exactly C > 0 bytes except a shorter final one), the iterator yields
ceil(S/C) frames, the writeOffsets are 0, C, 2C, ... (strictly increasing,
each equal to the prior offset plus the prior chunk length), the chunk
lengths sum to S, and finishWrite is true exactly on the last frame. -/
theorem c2_upload_frames (rn : String) (C : Nat) (bytes : List Nat)
    (hC : 0 < C) (hS : 0 < bytes.length) :
    (uploadFrames rn C bytes).length = (bytes.length + C - 1) / C ∧
    (uploadFrames rn C bytes).map (fun f => f.writeOffset) =
      (List.range (uploadFrames rn C bytes).length).map (fun i => i * C) ∧
    List.Chain' (fun f g => g.writeOffset = f.writeOffset + f.data.length)
      (uploadFrames rn C bytes) ∧
    List.Chain' (fun f g => f.writeOffset < g.writeOffset) (uploadFrames rn C bytes) ∧
    ((uploadFrames rn C bytes).map (fun f => f.data.length)).sum = bytes.length ∧
    (uploadFrames rn C bytes).map (fun f => f.finishWrite) =
      List.replicate ((uploadFrames rn C bytes).length - 1) false ++ [true] := by
  have hne : bytes ≠ [] := by
    intro h
    rw [h] at hS
    simp at hS
  obtain ⟨h1, h2, h3, h4, h5, h6⟩ :=
    goFrames_spec rn C hC bytes.length bytes rfl hne 0 (uploadFrames rn C bytes)
      (by unfold uploadFrames fileFrames; rw [Nat.sub_zero])
  refine ⟨h1, ?_, h3, h4, h5, h6⟩
  rw [h2]
  simp

/-- C2 witness: a concrete 5-byte upload in chunks of 2. -/
theorem c2_upload_frames_witness :
    0 < 2 ∧ 0 < ([1, 2, 3, 4, 5] : List Nat).length ∧
    ((uploadFrames "r" 2 [1, 2, 3, 4, 5]).length =
        (([1, 2, 3, 4, 5] : List Nat).length + 2 - 1) / 2 ∧
      (uploadFrames "r" 2 [1, 2, 3, 4, 5]).map (fun f => f.writeOffset) =
        (List.range (uploadFrames "r" 2 [1, 2, 3, 4, 5]).length).map (fun i => i * 2) ∧
      List.Chain' (fun f g => g.writeOffset = f.writeOffset + f.data.length)
        (uploadFrames "r" 2 [1, 2, 3, 4, 5]) ∧
      List.Chain' (fun f g => f.writeOffset < g.writeOffset)
        (uploadFrames "r" 2 [1, 2, 3, 4, 5]) ∧
      ((uploadFrames "r" 2 [1, 2, 3, 4, 5]).map (fun f => f.data.length)).sum =
        ([1, 2, 3, 4, 5] : List Nat).length ∧
      (uploadFrames "r" 2 [1, 2, 3, 4, 5]).map (fun f => f.finishWrite) =
        List.replicate ((uploadFrames "r" 2 [1, 2, 3, 4, 5]).length - 1) false ++ [true]) :=
  ⟨by decide, by decide, c2_upload_frames "r" 2 [1, 2, 3, 4, 5] (by decide) (by decide)⟩

/-- C2 counterexample to the claim as stated: the chunks [7] and [8] are each
at most C = 2 bytes and together deliver exactly the declared S = 2 bytes,
yet the iterator emits 2 frames instead of ceil(2/2) = 1, sets finishWrite on
both frames, and the second offset is not the first plus the first chunk
length (the loop accounts chunk sizes as min(remaining, C), not as the
delivered chunk length). -/
theorem c2_upload_frames_counterexample :
    (∀ c ∈ ([[7], [8]] : List (List Nat)), c.length ≤ 2) ∧
    ((([[7], [8]] : List (List Nat)).map List.length).sum = 2) ∧
    (fileFrames "r" 2 2 [[7], [8]]).map (fun f => f.finishWrite) = [true, true] ∧
    ¬ ((fileFrames "r" 2 2 [[7], [8]]).length = (2 + 2 - 1) / 2 ∧
       (fileFrames "r" 2 2 [[7], [8]]).map (fun f => f.finishWrite) =
         List.replicate ((fileFrames "r" 2 2 [[7], [8]]).length - 1) false ++ [true] ∧
       List.Chain' (fun f g => g.writeOffset = f.writeOffset + f.data.length)
         (fileFrames "r" 2 2 [[7], [8]])) := by
  decide

/-- C3 counterexample to the claim as stated: the primary lookup fails with
a genuine transport error (ConnectError code 7, PermissionDenied), yet the
fallback lookups ARE issued and a fallback result IS returned. -/
theorem c3_primary_error_counterexample :
    (getCacheEntry { platformIsWin32 := false, versionSaltEnv := none } ["p"] "k" ["k2"]
        (some "gzip") false
        { primary := .connectErr 7 "permission denied",
          fallbacks := [.actionResult
            [{ path := "out", digest := { hash := "abc", sizeBytes := 3 } }]] }).fallbacksIssued
          = true ∧
    (getCacheEntry { platformIsWin32 := false, versionSaltEnv := none } ["p"] "k" ["k2"]
        (some "gzip") false
        { primary := .connectErr 7 "permission denied",
          fallbacks := [.actionResult
            [{ path := "out", digest := { hash := "abc", sizeBytes := 3 } }]] }).result
      = .ok (some { hash := "abc", sizeBytes := 3 }) :=
  ⟨rfl, rfl⟩

/-- C3 (amended): a primary-lookup failure that is a ConnectError — even a
genuine non-NotFound transport error — does not abort resolution: it is at
most logged and resolution falls through to the fallback keys exactly as on
NotFound (issuing the fallback lookups when fallback keys exist); resolution
aborts immediately with the failure and with no fallback lookup issued only
when the failure is not a ConnectError. -/
theorem c3_primary_error_fallthrough (env : Env) (paths : List String) (primaryKey : String)
    (restoreKeys : List String) (cm : Option String) (cross : Bool) (run : ResolveRun) :
    (∀ c m, run.primary = .connectErr c m → c ≠ NotFoundCode →
      getCacheEntry env paths primaryKey restoreKeys cm cross run =
        (if restoreKeys.isEmpty then
          { result := .ok none, fallbacksIssued := false }
        else
          { result := scanFallbacks run.fallbacks false "", fallbacksIssued := true })) ∧
    (∀ m, run.primary = .otherErr m →
      getCacheEntry env paths primaryKey restoreKeys cm cross run =
        { result := .error m, fallbacksIssued := false }) := by
  constructor
  · intro c m hp _
    simp [getCacheEntry, hp]
  · intro m hp
    simp [getCacheEntry, hp]

/-- C3 witness: a primary PermissionDenied error falls through to a scan of
the single (clean NotFound) fallback; a primary non-ConnectError aborts. -/
theorem c3_primary_error_fallthrough_witness :
    getCacheEntry { platformIsWin32 := false, versionSaltEnv := none } ["p"] "k" ["k2"]
        (some "gzip") false
        { primary := .connectErr 14 "unavailable", fallbacks := [.connectErr 5 "nf"] } =
      { result := scanFallbacks [.connectErr 5 "nf"] false "", fallbacksIssued := true } ∧
    getCacheEntry { platformIsWin32 := false, versionSaltEnv := none } ["p"] "k" []
        (some "gzip") false
        { primary := .otherErr "boom", fallbacks := [] } =
      { result := .error "boom", fallbacksIssued := false } := by
  constructor
  · have h := (c3_primary_error_fallthrough
      { platformIsWin32 := false, versionSaltEnv := none } ["p"] "k" ["k2"]
      (some "gzip") false
      { primary := .connectErr 14 "unavailable", fallbacks := [.connectErr 5 "nf"] }).1
      14 "unavailable" rfl (by decide)
    simpa using h
  · exact (c3_primary_error_fallthrough
      { platformIsWin32 := false, versionSaltEnv := none } ["p"] "k" []
      (some "gzip") false
      { primary := .otherErr "boom", fallbacks := [] }).2 "boom" rfl

/-- C4: a primary association with at least one recorded output is returned
at once with no fallback lookup issued; otherwise, whenever a Hit is
returned it is the digest of the first fallback entry in declared order that
resolved with at least one recorded output (completion order is absorbed by
the order-preserving settlement of the concurrent fallback lookups). -/
theorem c4_resolve_precedence (env : Env) (paths : List String) (primaryKey : String)
    (restoreKeys : List String) (cm : Option String) (cross : Bool) (run : ResolveRun) :
    (∀ o rest, run.primary = .actionResult (o :: rest) →
      getCacheEntry env paths primaryKey restoreKeys cm cross run =
        { result := .ok (some o.digest), fallbacksIssued := false }) ∧
    (hasOutput run.primary = false →
      ∀ d, (getCacheEntry env paths primaryKey restoreKeys cm cross run).result =
          .ok (some d) →
        firstHitDigest run.fallbacks = some d) := by
  constructor
  · intro o rest hp
    simp [getCacheEntry, hp]
  · intro hno d hres
    cases hp : run.primary with
    | actionResult outs =>
      cases outs with
      | nil => simp [getCacheEntry, hp] at hres
      | cons o os => rw [hp] at hno; simp [hasOutput] at hno
    | otherErr m => simp [getCacheEntry, hp] at hres
    | connectErr c m =>
      cases hr : restoreKeys.isEmpty with
      | true => simp [getCacheEntry, hp, hr] at hres
      | false =>
        simp only [getCacheEntry, hp, hr] at hres
        simp at hres
        exact scan_ok_some run.fallbacks false "" d hres

/-- C4 witness: a primary hit returns its digest with no fallback issued; a
returned fallback hit is the first fallback with an output. -/
theorem c4_resolve_precedence_witness :
    getCacheEntry { platformIsWin32 := false, versionSaltEnv := none } ["p"] "k" [] none false
        { primary := .actionResult [{ path := "o", digest := { hash := "h1", sizeBytes := 1 } }],
          fallbacks := [] } =
      { result := .ok (some { hash := "h1", sizeBytes := 1 }), fallbacksIssued := false } ∧
    firstHitDigest [.connectErr 5 "x",
        .actionResult [{ path := "q", digest := { hash := "h2", sizeBytes := 2 } }]] =
      some { hash := "h2", sizeBytes := 2 } := by
  constructor
  · exact (c4_resolve_precedence { platformIsWin32 := false, versionSaltEnv := none }
      ["p"] "k" [] none false
      { primary := .actionResult [{ path := "o", digest := { hash := "h1", sizeBytes := 1 } }],
        fallbacks := [] }).1
      { path := "o", digest := { hash := "h1", sizeBytes := 1 } } [] rfl
  · exact (c4_resolve_precedence { platformIsWin32 := false, versionSaltEnv := none }
      ["p"] "k" ["k1", "k2"] none false
      { primary := .connectErr 5 "",
        fallbacks := [.connectErr 5 "x",
          .actionResult [{ path := "q", digest := { hash := "h2", sizeBytes := 2 } }]] }).2
      rfl { hash := "h2", sizeBytes := 2 } rfl

/-- C5: when the primary key misses cleanly and no fallback has a recorded
output, resolution throws the aggregated collected messages if at least one
fallback ended in a genuine (non-NotFound) transport error, and returns the
Miss (undefined, no error) if every fallback result was a clean
not-found. -/
theorem c5_miss_or_aggregate (env : Env) (paths : List String) (primaryKey : String)
    (restoreKeys : List String) (cm : Option String) (cross : Bool) (run : ResolveRun)
    (m : String) (hfb : run.fallbacks.length = restoreKeys.length)
    (hp : run.primary = .connectErr NotFoundCode m)
    (hnohit : ∀ lr ∈ run.fallbacks, hasOutput lr = false) :
    ((∃ lr ∈ run.fallbacks, genuineErr lr = true) →
      (getCacheEntry env paths primaryKey restoreKeys cm cross run).result =
        .error (collectMessages run.fallbacks)) ∧
    ((∀ lr ∈ run.fallbacks, cleanNotFound lr = true) →
      (getCacheEntry env paths primaryKey restoreKeys cm cross run).result = .ok none) := by
  constructor
  · rintro ⟨lr, hmem, hgen⟩
    have hne : run.fallbacks ≠ [] := by
      intro h
      rw [h] at hmem
      simp at hmem
    have hrne : restoreKeys.isEmpty = false := by
      cases hrk : restoreKeys with
      | nil =>
        rw [hrk] at hfb
        simp at hfb
        exact absurd hfb hne
      | cons a t => rfl
    simp only [getCacheEntry, hp, hrne]
    simp only [Bool.false_eq_true, if_false]
    rw [scan_no_hit run.fallbacks false "" hnohit]
    have hany : run.fallbacks.any (fun lr => (contrib lr).isSome) = true :=
      List.any_eq_true.mpr ⟨lr, hmem, genuine_contrib hgen⟩
    simp [hany, collectMessages]
  · intro hclean
    cases hr : restoreKeys.isEmpty with
    | true => simp [getCacheEntry, hp, hr]
    | false =>
      simp only [getCacheEntry, hp, hr]
      simp only [Bool.false_eq_true, if_false]
      rw [scan_no_hit run.fallbacks false "" hnohit]
      have hany : run.fallbacks.any (fun lr => (contrib lr).isSome) = false := by
        rw [List.any_eq_false]
        intro lr hmem
        simp [clean_contrib (hclean lr hmem)]
      simp [hany]

/-- C5 witness: one genuine Unavailable fallback error among clean misses
aggregates into a thrown message; two clean NotFound fallbacks give Miss. -/
theorem c5_miss_or_aggregate_witness :
    (getCacheEntry { platformIsWin32 := false, versionSaltEnv := none } ["p"] "k" ["k1", "k2"]
        none false
        { primary := .connectErr 5 "nf",
          fallbacks := [.connectErr 5 "nf", .connectErr 14 "unavailable"] }).result =
      .error (collectMessages [.connectErr 5 "nf", .connectErr 14 "unavailable"]) ∧
    (getCacheEntry { platformIsWin32 := false, versionSaltEnv := none } ["p"] "k" ["k1", "k2"]
        none false
        { primary := .connectErr 5 "nf",
          fallbacks := [.connectErr 5 "a", .connectErr 5 "b"] }).result = .ok none := by
  constructor
  · exact (c5_miss_or_aggregate { platformIsWin32 := false, versionSaltEnv := none }
      ["p"] "k" ["k1", "k2"] none false
      { primary := .connectErr 5 "nf",
        fallbacks := [.connectErr 5 "nf", .connectErr 14 "unavailable"] } "nf"
      rfl rfl (by decide)).1 ⟨.connectErr 14 "unavailable", by decide, by decide⟩
  · exact (c5_miss_or_aggregate { platformIsWin32 := false, versionSaltEnv := none }
      ["p"] "k" ["k1", "k2"] none false
      { primary := .connectErr 5 "nf",
        fallbacks := [.connectErr 5 "a", .connectErr 5 "b"] } "nf"
      rfl rfl (by decide)).2 (by decide)

/-- C6: when the remote-reported committed size is strictly below the
declared archive size, saveCache throws the transfer-incomplete error and
the updateActionResult registration call is never made. -/
theorem c6_short_commit_no_registration (env : Env) (key : String) (paths : List String)
    (cm : Option String) (cross : Bool) (archiveFileSize : Nat) (net : SaveRun) (c : Nat)
    (hw : net.writeResult = .ok c) (hlt : c < archiveFileSize) :
    saveCache env key paths cm cross archiveFileSize net =
      { result := .error "The upload process failed to send the entire file content",
        updateCalledWith := none } := by
  simp [saveCache, hw, hlt]

/-- C6 witness: a write of a 5-byte archive committing only 3 bytes. -/
theorem c6_short_commit_no_registration_witness :
    ({ writeResult := .ok 3, updateResult := .ok () } : SaveRun).writeResult = .ok 3 ∧
    3 < 5 ∧
    saveCache { platformIsWin32 := false, versionSaltEnv := none } "k" ["p"] (some "gzip")
        false 5 { writeResult := .ok 3, updateResult := .ok () } =
      { result := .error "The upload process failed to send the entire file content",
        updateCalledWith := none } :=
  ⟨rfl, by decide,
    c6_short_commit_no_registration { platformIsWin32 := false, versionSaltEnv := none }
      "k" ["p"] (some "gzip") false 5 { writeResult := .ok 3, updateResult := .ok () } 3
      rfl (by decide)⟩

/-- C7 (claim refuted, code bug): on a cache hit restoreCache returns
cacheEntry.hash — the CONTENT digest hash of the stored blob — not the
matched symbolic key that its own doc comment promises, both with lookupOnly
set and after the download-and-extract path. -/
theorem c7_restore_returns_content_hash :
    CasCacheService.restoreCache ["p"] "my-key" [] true
        { entry := .ok (some { hash := "0a1b", sizeBytes := 4 }), download := .ok (),
          extract := .ok () } =
      { result := .ok (some "0a1b"), networkCalled := true } ∧
    CasCacheService.restoreCache ["p"] "my-key" [] false
        { entry := .ok (some { hash := "0a1b", sizeBytes := 4 }), download := .ok (),
          extract := .ok () } =
      { result := .ok (some "0a1b"), networkCalled := true } ∧
    "0a1b" ≠ "my-key" :=
  ⟨rfl, rfl, by decide⟩

/-- C8: with the validations passing, a ValidationError arising inside an
operation is rethrown unmasked, while every other failure is caught and
degrades to the no-op outcome: restoreCache returns Miss (undefined) and
saveCache returns the sentinel -1. -/
theorem c8_error_degradation
    (paths : List String) (pk : String) (rks : List String) (lo : Bool) (net : RestoreNet)
    (spaths : List String) (key : String) (ucs : Option Nat) (cps : List String)
    (afs : Nat) (ghes : Bool) (snet : SaveNet)
    (hr : restoreChecksPass paths pk rks) (hs : saveChecksPass spaths key ucs cps) :
    (∀ m, net.entry = .error (.other m) →
      CasCacheService.restoreCache paths pk rks lo net =
        { result := .ok none, networkCalled := true }) ∧
    (∀ m, net.entry = .error (.validation m) →
      (CasCacheService.restoreCache paths pk rks lo net).result = .error m) ∧
    (∀ d m, net.entry = .ok (some d) → lo = false → net.download = .error (.other m) →
      CasCacheService.restoreCache paths pk rks lo net =
        { result := .ok none, networkCalled := true }) ∧
    (∀ d m, net.entry = .ok (some d) → lo = false → net.download = .ok () →
      net.extract = .error (.other m) →
      CasCacheService.restoreCache paths pk rks lo net =
        { result := .ok none, networkCalled := true }) ∧
    (∀ m, snet.tar = .error (.other m) →
      CasCacheService.saveCache spaths key ucs cps afs ghes snet =
        { result := .ok (-1), networkCalled := false }) ∧
    (snet.tar = .ok () → afs > fileSizeLimit → ghes = false →
      CasCacheService.saveCache spaths key ucs cps afs ghes snet =
        { result := .ok (-1), networkCalled := false }) ∧
    (∀ m, snet.tar = .ok () → ¬ (afs > fileSizeLimit ∧ ghes = false) →
      snet.save = .error (.other m) →
      CasCacheService.saveCache spaths key ucs cps afs ghes snet =
        { result := .ok (-1), networkCalled := true }) ∧
    (∀ m, snet.tar = .ok () → ¬ (afs > fileSizeLimit ∧ ghes = false) →
      snet.save = .error (.reserve m) →
      CasCacheService.saveCache spaths key ucs cps afs ghes snet =
        { result := .ok (-1), networkCalled := true }) ∧
    (∀ m, snet.tar = .ok () → ¬ (afs > fileSizeLimit ∧ ghes = false) →
      snet.save = .error (.validation m) →
      (CasCacheService.saveCache spaths key ucs cps afs ghes snet).result = .error m) := by
  obtain ⟨hr1, hr2, hr3⟩ := hr
  obtain ⟨hs1, hs2, hs3, hs4⟩ := hs
  have hr2' : ¬ (10 < rks.length + 1) := by
    simp only [List.length_cons] at hr2
    omega
  refine ⟨?_, ?_, ?_, ?_, ?_, ?_, ?_, ?_, ?_⟩
  · intro m he
    simp [CasCacheService.restoreCache, hr1, hr2', hr3, he]
  · intro m he
    simp [CasCacheService.restoreCache, hr1, hr2', hr3, he]
  · intro d m he hlo hd
    simp [CasCacheService.restoreCache, hr1, hr2', hr3, he, hlo, hd]
  · intro d m he hlo hd hx
    simp [CasCacheService.restoreCache, hr1, hr2', hr3, he, hlo, hd, hx]
  · intro m ht
    simp [CasCacheService.saveCache, hs1, hs2, hs3, hs4, ht]
  · intro ht hsz hg
    simp [CasCacheService.saveCache, hs1, hs2, hs3, hs4, ht, hsz, hg]
  · intro m ht hsz hsv
    simp [CasCacheService.saveCache, hs1, hs2, hs3, hs4, ht, hsz, hsv]
  · intro m ht hsz hsv
    simp [CasCacheService.saveCache, hs1, hs2, hs3, hs4, ht, hsz, hsv]
  · intro m ht hsz hsv
    simp [CasCacheService.saveCache, hs1, hs2, hs3, hs4, ht, hsz, hsv]

/-- C8 witness: a transport failure of getCacheEntry degrades restore to
Miss, and a transport failure of the grpc save degrades save to -1. -/
theorem c8_error_degradation_witness :
    CasCacheService.restoreCache ["p"] "k" [] false
        { entry := .error (.other "boom"), download := .ok (), extract := .ok () } =
      { result := .ok none, networkCalled := true } ∧
    CasCacheService.saveCache ["p"] "k" none ["c"] 10 false
        { tar := .ok (), save := .error (.other "net down") } =
      { result := .ok (-1), networkCalled := true } := by
  have h := c8_error_degradation ["p"] "k" [] false
    { entry := .error (.other "boom"), download := .ok (), extract := .ok () }
    ["p"] "k" none ["c"] 10 false { tar := .ok (), save := .error (.other "net down") }
    ⟨rfl, by decide, rfl⟩ ⟨by decide, rfl, rfl, rfl⟩
  exact ⟨h.1 "boom" rfl, (h.2.2.2.2.2.2.1) "net down" rfl (by decide) rfl⟩

/-- C9: a save whose key contains a comma or exceeds 512 characters, and a
restore with more than 10 total keys, throw a ValidationError with no
network call issued: the outcome does not depend on the network oracle at
all. -/
theorem c9_validation_before_network
    (spaths : List String) (key : String) (ucs : Option Nat) (cps : List String)
    (afs : Nat) (ghes : Bool) (snet snet2 : SaveNet)
    (paths : List String) (pk : String) (rks : List String) (lo : Bool)
    (net net2 : RestoreNet) :
    ((key.data.contains ',' = true ∨ key.length > 512) →
      ((∃ m, (CasCacheService.saveCache spaths key ucs cps afs ghes snet).result = .error m) ∧
       (CasCacheService.saveCache spaths key ucs cps afs ghes snet).networkCalled = false ∧
       CasCacheService.saveCache spaths key ucs cps afs ghes snet =
         CasCacheService.saveCache spaths key ucs cps afs ghes snet2)) ∧
    ((pk :: rks).length > 10 →
      ((∃ m, (CasCacheService.restoreCache paths pk rks lo net).result = .error m) ∧
       (CasCacheService.restoreCache paths pk rks lo net).networkCalled = false ∧
       CasCacheService.restoreCache paths pk rks lo net =
         CasCacheService.restoreCache paths pk rks lo net2)) := by
  constructor
  · intro hkey
    have hck : ∃ m, checkKeyErr key = some m := by
      unfold checkKeyErr
      rcases Nat.lt_or_ge 512 key.length with h | h
      · exact ⟨"Key Validation Error: " ++ key ++ " cannot be larger than 512 characters.",
          by simp [h]⟩
      · have hnl : ¬ key.length > 512 := by omega
        have hc : key.data.contains ',' = true := by
          rcases hkey with hk | hk
          · exact hk
          · omega
        exact ⟨"Key Validation Error: " ++ key ++ " cannot contain commas.", by
          simp [hnl]
          simpa using hc⟩
    by_cases h1 : truthyNat ucs = true ∧ ucs.getD 0 * 1024 > MAX_GRPC_REQUEST_SIZE
    · refine ⟨⟨"UploadChunkSize input cannot exceed the value of: " ++
        toString MAX_GRPC_REQUEST_SIZE ++ " MB", ?_⟩, ?_, ?_⟩ <;>
        simp [CasCacheService.saveCache, h1]
    · cases hp : checkPathsErr spaths with
      | some m =>
        refine ⟨⟨m, ?_⟩, ?_, ?_⟩ <;> simp [CasCacheService.saveCache, h1, hp]
      | none =>
        obtain ⟨m, hm⟩ := hck
        refine ⟨⟨m, ?_⟩, ?_, ?_⟩ <;> simp [CasCacheService.saveCache, h1, hp, hm]
  · intro hkeys
    have hkeys' : 10 < rks.length + 1 := by
      simpa using hkeys
    cases hp : checkPathsErr paths with
    | some m =>
      refine ⟨⟨m, ?_⟩, ?_, ?_⟩ <;> simp [CasCacheService.restoreCache, hp]
    | none =>
      refine ⟨⟨"Key Validation Error: Keys are limited to a maximum of 10.", ?_⟩, ?_, ?_⟩ <;>
        simp [CasCacheService.restoreCache, hp, hkeys']

/-- C9 witness: the key "a,b" aborts save before the network, and eleven
total keys abort restore before the network, for any oracle. -/
theorem c9_validation_before_network_witness :
    ((∃ m, (CasCacheService.saveCache ["p"] "a,b" none ["c"] 0 false
        { tar := .ok (), save := .ok () }).result = .error m) ∧
     (CasCacheService.saveCache ["p"] "a,b" none ["c"] 0 false
        { tar := .ok (), save := .ok () }).networkCalled = false ∧
     CasCacheService.saveCache ["p"] "a,b" none ["c"] 0 false
         { tar := .ok (), save := .ok () } =
       CasCacheService.saveCache ["p"] "a,b" none ["c"] 0 false
         { tar := .error (.other "x"), save := .error (.other "y") }) ∧
    ((∃ m, (CasCacheService.restoreCache ["p"] "k0"
        ["k1", "k2", "k3", "k4", "k5", "k6", "k7", "k8", "k9", "k10"] false
        { entry := .ok none, download := .ok (), extract := .ok () }).result = .error m) ∧
     (CasCacheService.restoreCache ["p"] "k0"
        ["k1", "k2", "k3", "k4", "k5", "k6", "k7", "k8", "k9", "k10"] false
        { entry := .ok none, download := .ok (), extract := .ok () }).networkCalled = false ∧
     CasCacheService.restoreCache ["p"] "k0"
         ["k1", "k2", "k3", "k4", "k5", "k6", "k7", "k8", "k9", "k10"] false
         { entry := .ok none, download := .ok (), extract := .ok () } =
       CasCacheService.restoreCache ["p"] "k0"
         ["k1", "k2", "k3", "k4", "k5", "k6", "k7", "k8", "k9", "k10"] false
         { entry := .error (.other "z"), download := .ok (), extract := .ok () }) := by
  have h := c9_validation_before_network ["p"] "a,b" none ["c"] 0 false
    { tar := .ok (), save := .ok () } { tar := .error (.other "x"), save := .error (.other "y") }
    ["p"] "k0" ["k1", "k2", "k3", "k4", "k5", "k6", "k7", "k8", "k9", "k10"] false
    { entry := .ok none, download := .ok (), extract := .ok () }
    { entry := .error (.other "z"), download := .ok (), extract := .ok () }
  exact ⟨h.1 (Or.inl (by decide)), h.2 (by decide)⟩

/-- C1: the fingerprint is the hex digest of the hash of the "|"-join of the
ordered spec component list, and it is deterministic. -/
theorem c1_getCacheVersion_spec (env : Env) (paths : List String)
    (compressionMethod : Option String) (enableCrossOsArchive : Bool) (key : Option String) :
    getCacheVersion env paths compressionMethod enableCrossOsArchive key =
      sha256Hex (String.intercalate "|"
        (specComponents env paths compressionMethod enableCrossOsArchive key)) ∧
    getCacheVersion env paths compressionMethod enableCrossOsArchive key =
      getCacheVersion env paths compressionMethod enableCrossOsArchive key := by
  refine ⟨?_, rfl⟩
  unfold getCacheVersion specComponents
  cases compressionMethod with
  | none =>
    cases key with
    | none =>
      cases hw : env.platformIsWin32 <;> cases enableCrossOsArchive <;>
        simp [truthy, hw, List.append_assoc]
    | some k =>
      rcases eq_or_ne k "" with hk | hk <;>
        cases hw : env.platformIsWin32 <;> cases enableCrossOsArchive <;>
          simp [truthy, hw, hk, List.append_assoc]
  | some c =>
    rcases eq_or_ne c "" with hc | hc <;>
    cases key with
    | none =>
      cases hw : env.platformIsWin32 <;> cases enableCrossOsArchive <;>
        simp [truthy, hw, hc, List.append_assoc]
    | some k =>
      rcases eq_or_ne k "" with hk | hk <;>
        cases hw : env.platformIsWin32 <;> cases enableCrossOsArchive <;>
          simp [truthy, hw, hc, hk, List.append_assoc]

/-- C10: a fingerprint computed with the symbolic key equal to the empty
string is identical to one computed with no key at all, and likewise for an
empty versus absent compression tag, because empty components are omitted. -/
theorem c10_empty_equals_absent (env : Env) (paths : List String)
    (compressionMethod : Option String) (enableCrossOsArchive : Bool) (key : Option String) :
    getCacheVersion env paths compressionMethod enableCrossOsArchive (some "") =
      getCacheVersion env paths compressionMethod enableCrossOsArchive none ∧
    getCacheVersion env paths (some "") enableCrossOsArchive key =
      getCacheVersion env paths none enableCrossOsArchive key := by
  constructor <;> unfold getCacheVersion <;> simp [truthy]

end NL
